import Mathlib

/-!
Verification development for the valutatrade_hub rate cache and update
pipeline.  The Python source is shallowly embedded: JSON dictionaries of
currency pairs become association lists over String keys, floats become
rationals, caught exceptions become Option/Except values, and the two
calls to datetime.now become explicit parameters.
-/

namespace ValutaTradeHub

/-- One snapshot entry (the value stored under a pair key), mirroring the
dictionary written by RatesUpdater._update_combined_pairs:
rate, updated_at, source.  Provider batches carry the same three fields
(their opaque meta bag is dropped by the merge and not modelled). -/
structure PairEntry where
  rate : ℚ
  updated_at : String
  source : String
deriving DecidableEq, Repr

/-- The pairs mapping of a snapshot: a Python dict modelled as an
association list with unique-key update semantics. -/
abbrev Pairs := List (String × PairEntry)

/-- Dictionary lookup: first binding of the key wins (Python dict get). -/
def lookupKV {α : Type} (ps : List (String × α)) (k : String) : Option α :=
  match ps with
  | [] => none
  | (k', v) :: rest => if k' = k then some v else lookupKV rest k

/-- Dictionary update: replace the binding of the key if present,
otherwise append a new binding (Python dict item assignment). -/
def setKV {α : Type} (ps : List (String × α)) (k : String) (v : α) :
    List (String × α) :=
  match ps with
  | [] => [(k, v)]
  | (k', v') :: rest =>
    if k' = k then (k', v) :: rest else (k', v') :: setKV rest k v

/-- The snapshot document persisted in rates.json:
pairs plus an optional last_refresh timestamp. -/
structure Snapshot where
  pairs : Pairs
  last_refresh : Option String
deriving DecidableEq, Repr

theorem lookupKV_setKV_self {α : Type} (ps : List (String × α)) (k : String)
    (v : α) : lookupKV (setKV ps k v) k = some v := by
  induction ps with
  | nil => simp [setKV, lookupKV]
  | cons p rest ih =>
    by_cases h : p.1 = k
    · simp [setKV, lookupKV, h]
    · simp only [setKV]
      rw [if_neg h]
      simp only [lookupKV]
      rw [if_neg h]
      exact ih

theorem lookupKV_setKV_other {α : Type} (ps : List (String × α))
    (k k' : String) (v : α) (h : k ≠ k') :
    lookupKV (setKV ps k v) k' = lookupKV ps k' := by
  induction ps with
  | nil => simp [setKV, lookupKV, h]
  | cons p rest ih =>
    by_cases hp : p.1 = k
    · simp only [setKV]
      rw [if_pos hp]
      simp only [lookupKV]
      rw [hp]
      rw [if_neg h, if_neg h]
    · simp only [setKV]
      rw [if_neg hp]
      simp only [lookupKV]
      by_cases hp' : p.1 = k'
      · rw [if_pos hp', if_pos hp']
      · rw [if_neg hp', if_neg hp']
        exact ih

/-- Lexicographic comparison of character lists in code-point order,
the order Python's operator applies to strings. -/
def charListLt : List Char → List Char → Bool
  | _, [] => false
  | [], _ :: _ => true
  | a :: as, b :: bs =>
    if a < b then true
    else if b < a then false
    else charListLt as bs

/-- Python string comparison, used on the ISO-8601 updated_at strings by
the merge. -/
def strLt (a b : String) : Bool := charListLt a.data b.data

/-- A provider batch: the mapping returned by a successful fetch_rates
call, pair key to quote data. -/
abbrev Batch := List (String × PairEntry)

/-- One provider's fetch attempt in a run: either a batch, or the message
of the ApiRequestError that the run_update loop catches. -/
abbrev FetchResult := Except String Batch

/-- RatesUpdater._update_combined_pairs: replace the entry for pair_key
when it is absent or its updated_at string is lexicographically smaller
than the incoming updated_at; otherwise keep the existing entry. -/
def updateCombinedPairs (combined : Pairs) (pairKey : String)
    (meta : PairEntry) : Pairs :=
  match lookupKV combined pairKey with
  | none => setKV combined pairKey meta
  | some existing =>
    if strLt existing.updated_at meta.updated_at then
      setKV combined pairKey meta
    else combined

/-- RatesUpdater._process_client_data restricted to the snapshot side:
fold every quote of a batch into the combined pairs.  (The unconditional
history-log append done per quote does not affect the snapshot and is not
modelled.) -/
def processClientData (combined : Pairs) (batch : Batch) : Pairs :=
  batch.foldl (fun acc kv => updateCombinedPairs acc kv.1 kv.2) combined

/-- The mutable state of the run_update provider loop:
combined_pairs, errors, total_fetched. -/
structure RunState where
  combined : Pairs
  errors : List String
  fetched : Nat
deriving DecidableEq, Repr

/-- One iteration of the run_update loop: on success merge the batch and
add its size to total_fetched; on ApiRequestError append the message. -/
def applyFetch (st : RunState) (fr : FetchResult) : RunState :=
  match fr with
  | .ok batch =>
    { st with
      combined := processClientData st.combined batch
      fetched := st.fetched + batch.length }
  | .error e => { st with errors := st.errors ++ [e] }

/-- RatesSnapshotStorage.write_snapshot: the document it persists, with
last_refresh set to the write time. -/
def writeSnapshot (pairs : Pairs) (now : String) : Snapshot :=
  { pairs := pairs, last_refresh := some now }

/-- The dictionary run_update returns (RefreshResult):
total pairs after merge, freshly fetched count, provider errors, and the
completion timestamp. -/
structure RefreshResult where
  total : Nat
  fetched : Nat
  errors : List String
  last_refresh : String
deriving DecidableEq, Repr

/-- What a run_update call leaves behind: the snapshot-file contents after
the run (the prior contents when no write happens) and the returned
result. -/
structure UpdateOutcome where
  file : Snapshot
  result : RefreshResult
deriving DecidableEq, Repr

/-- RatesUpdater.run_update: start from the existing snapshot's pairs,
fold the selected providers' fetch results, write the snapshot iff the
combined mapping is non-empty, and build the result.  The two
datetime.now calls (write_snapshot and _build_result) are modelled by the
single parameter now. -/
def runUpdate (existingSnapshot : Snapshot) (fetches : List FetchResult)
    (now : String) : UpdateOutcome :=
  let final := fetches.foldl applyFetch ⟨existingSnapshot.pairs, [], 0⟩
  let file :=
    if final.combined.isEmpty then existingSnapshot
    else writeSnapshot final.combined now
  { file := file
    result :=
      { total := final.combined.length
        fetched := final.fetched
        errors := final.errors
        last_refresh := now } }

/-- The batches of the successful fetches of a run, in loop order. -/
def okBatches (fetches : List FetchResult) : List Batch :=
  fetches.filterMap (fun fr => match fr with
    | .ok b => some b
    | .error _ => none)

/-- The state of the rates.json file as seen by
RatesSnapshotStorage.read_snapshot: missing (open raises), unreadable
(json.load raises), or a parsed snapshot document. -/
inductive SnapshotFileState where
  | missing
  | unreadable
  | valid (snap : Snapshot)
deriving DecidableEq, Repr

/-- RatesSnapshotStorage.read_snapshot: return the parsed document, and on
any exception (missing file, unparseable JSON) the default
pairs-empty/last_refresh-null snapshot.  The try/except is modelled by
totality over the three file states. -/
def readSnapshot : SnapshotFileState → Snapshot
  | .valid snap => snap
  | .missing => { pairs := [], last_refresh := none }
  | .unreadable => { pairs := [], last_refresh := none }

/-- The inverse-rate computation both API clients perform:
1.0 / rate if rate is nonzero, else 0.0 (never a division fault). -/
def invRate (r : ℚ) : ℚ :=
  if r = 0 then 0 else 1 / r

/-- ParserConfig.CRYPTO_ID_MAP, in its source order. -/
def cryptoIdMap : List (String × String) :=
  [("BTC", "bitcoin"), ("ETH", "ethereum"), ("SOL", "solana")]

/-- ParserConfig.FIAT_CURRENCIES (constants.SUPPORTED_FIAT). -/
def fiatCurrencies : List String := ["EUR", "GBP", "RUB"]

/-- ParserConfig.BASE_FIAT_CURRENCY, fixed to USD by the config. -/
def baseFiatCurrency : String := "USD"

/-- CoinGeckoClient.fetch_rates after the HTTP call: priceOf models
data.get(raw_id, {}).get("usd") from the decoded response, ts the single
timestamp taken for the whole batch.  For each mapped code with an
available price the batch receives the direct CODE_USD quote and the
inverse USD_CODE quote; codes without a price are skipped.  The per-quote
meta dictionary is not modelled. -/
def coinGeckoFetchRates (priceOf : String → Option ℚ) (ts : String) :
    Batch :=
  cryptoIdMap.foldl
    (fun result p =>
      match priceOf p.2 with
      | none => result
      | some rate =>
        let result1 :=
          setKV result (p.1 ++ "_" ++ baseFiatCurrency)
            ⟨rate, ts, "CoinGecko"⟩
        setKV result1 (baseFiatCurrency ++ "_" ++ p.1)
          ⟨invRate rate, ts, "CoinGecko"⟩)
    []

/-- ExchangeRateApiClient.fetch_rates after the HTTP call: ratesOf models
the numeric value of rates.get(code) (none when missing or not a number,
which the source skips via its try/except around float()).  For each fiat
code other than the base the batch receives the direct USD_CODE quote and
the inverse CODE_USD quote. -/
def exchangeRateFetchRates (ratesOf : String → Option ℚ) (ts : String) :
    Batch :=
  fiatCurrencies.foldl
    (fun result code =>
      if code = baseFiatCurrency then result
      else
        match ratesOf code with
        | none => result
        | some rate =>
          let result1 :=
            setKV result (baseFiatCurrency ++ "_" ++ code)
              ⟨rate, ts, "ExchangeRate-API"⟩
          setKV result1 (code ++ "_" ++ baseFiatCurrency)
            ⟨invRate rate, ts, "ExchangeRate-API"⟩)
    []

/-- The distinct families of message strings _check_data_freshness can
return, modelled by constructors carrying exactly the data interpolated
into each message: the no-timestamp notice, the stale notice (with the
last_refresh string and the TTL in minutes), and the parse-error notice
(with the offending timestamp). -/
inductive FreshnessMessage where
  | noTimestamp
  | stale (lastRefresh : String) (ttlMinutes : ℚ)
  | parseError (raw : String)
deriving DecidableEq, Repr

/-- Decimal digit value of a character, none for a non-digit. -/
def digitVal (c : Char) : Option Nat :=
  if c.isDigit then some (c.toNat - 48) else none

/-- Two-digit decimal field. -/
def digits2 (a b : Char) : Option Nat := do
  let x ← digitVal a
  let y ← digitVal b
  pure (10 * x + y)

/-- Four-digit decimal field. -/
def digits4 (a b c d : Char) : Option Nat := do
  let x ← digits2 a b
  let y ← digits2 c d
  pure (100 * x + y)

/-- Gregorian leap-year test. -/
def isLeapYear (y : Nat) : Bool :=
  (y % 4 = 0 && y % 100 ≠ 0) || y % 400 = 0

/-- Days in a month of the proleptic Gregorian calendar. -/
def daysInMonth (y m : Nat) : Nat :=
  if m = 2 then (if isLeapYear y then 29 else 28)
  else if m = 4 ∨ m = 6 ∨ m = 9 ∨ m = 11 then 30
  else 31

/-- Days from 1970-01-01 to the given civil date (valid for years
0 to 9999, so always computed from the nonnegative shifted year). -/
def daysFromCivil (y m d : Nat) : Int :=
  let y' := if m ≤ 2 then y - 1 else y
  let era := y' / 400
  let yoe := y' - era * 400
  let doy := (153 * (if 2 < m then m - 3 else m + 9) + 2) / 5 + d - 1
  let doe := yoe * 365 + yoe / 4 - yoe / 100 + doy
  (era * 146097 + doe : Int) - 719468

/-- Seconds since the epoch of a civil date-time. -/
def epochSeconds (y mo d h mi s : Nat) : Int :=
  daysFromCivil y mo d * 86400 + h * 3600 + mi * 60 + s

/-- datetime.fromisoformat on last_refresh.replace of Z with an offset,
restricted to the project's TIME_FORMAT string of the form
YYYY-MM-DDTHH:MM:SSZ: none for any string that is malformed or carries an
out-of-range field, otherwise the UTC epoch seconds. -/
def parseIsoZ (str : String) : Option Int :=
  match str.data with
  | [y1, y2, y3, y4, '-', mo1, mo2, '-', d1, d2, 'T',
     h1, h2, ':', mi1, mi2, ':', s1, s2, 'Z'] => do
    let y ← digits4 y1 y2 y3 y4
    let mo ← digits2 mo1 mo2
    let d ← digits2 d1 d2
    let h ← digits2 h1 h2
    let mi ← digits2 mi1 mi2
    let s ← digits2 s1 s2
    if 1 ≤ mo ∧ mo ≤ 12 ∧ 1 ≤ d ∧ d ≤ daysInMonth y mo ∧
        h ≤ 23 ∧ mi ≤ 59 ∧ s ≤ 59 then
      pure (epochSeconds y mo d h mi s)
    else none
  | _ => none

/-- _check_data_freshness: a falsy last_refresh (absent or empty) yields
the no-timestamp message; a timestamp that fails to parse yields the
parse-error message (the source catches the exception); otherwise the
stale message when now minus last_refresh exceeds the TTL, and nothing
when the data is fresh.  The datetime.now call and the configured TTL are
the explicit parameters nowSec and ttlSec. -/
def checkDataFreshness (nowSec ttlSec : Int) (lastRefresh : Option String) :
    Option FreshnessMessage :=
  match lastRefresh with
  | none => some .noTimestamp
  | some s =>
    if s = "" then some .noTimestamp
    else
      match parseIsoZ s with
      | none => some (.parseError s)
      | some t =>
        if ttlSec < nowSec - t then some (.stale s ((ttlSec : ℚ) / 60))
        else none

/-- Steps 1 to 3 of _get_conversion_rate: the identity rate, then the
direct entry when its rate is truthy and positive, then the inverse
entry's reciprocal under the same guard.  Entries whose rate fails the
guard fall through exactly as the early returns in the source do. -/
def rateInverseStep (pairs : Pairs) (fromCur toCur : String) : Option ℚ :=
  match lookupKV pairs (toCur ++ "_" ++ fromCur) with
  | some entry => if 0 < entry.rate then some (1 / entry.rate) else none
  | none => none

/-- Identity, direct and inverse lookup of _get_conversion_rate, in
source order; none when all three fail. -/
def rateSteps123 (pairs : Pairs) (fromCur toCur : String) : Option ℚ :=
  if fromCur = toCur then some 1
  else
    match lookupKV pairs (fromCur ++ "_" ++ toCur) with
    | some entry =>
      if 0 < entry.rate then some entry.rate
      else rateInverseStep pairs fromCur toCur
    | none => rateInverseStep pairs fromCur toCur

/-- _get_conversion_rate with an explicit recursion budget: after steps
1 to 3 fail, and only when neither code is USD, resolve through USD and
return the product when both legs are truthy and positive.  The source
recursion is realised by the structural fuel; the theorem for claim C9
shows any budget of at least 2 computes the same function. -/
def getConversionRateFuel : Nat → Pairs → String → String → Option ℚ
  | 0, _, _, _ => none
  | n + 1, pairs, fromCur, toCur =>
    match rateSteps123 pairs fromCur toCur with
    | some r => some r
    | none =>
      if fromCur ≠ "USD" ∧ toCur ≠ "USD" then
        match getConversionRateFuel n pairs fromCur "USD",
              getConversionRateFuel n pairs "USD" toCur with
        | some a, some b =>
          if 0 < a ∧ 0 < b then some (a * b) else none
        | _, _ => none
      else none

/-- _get_conversion_rate: budget 2 suffices because the recursive calls
always have USD on one side and therefore never enter the bridging
branch. -/
def getConversionRate (pairs : Pairs) (fromCur toCur : String) :
    Option ℚ :=
  getConversionRateFuel 2 pairs fromCur toCur

theorem lookupKV_updateCombinedPairs_self (c : Pairs) (k : String)
    (m : PairEntry) :
    lookupKV (updateCombinedPairs c k m) k =
      match lookupKV c k with
      | none => some m
      | some e => if strLt e.updated_at m.updated_at then some m
                  else some e := by
  unfold updateCombinedPairs
  cases h : lookupKV c k with
  | none => simp [lookupKV_setKV_self]
  | some e =>
    by_cases hlt : strLt e.updated_at m.updated_at = true
    · simp [hlt, lookupKV_setKV_self]
    · simp [hlt, h]

theorem lookupKV_updateCombinedPairs_other (c : Pairs) (k : String)
    (m : PairEntry) (k' : String) (h : k ≠ k') :
    lookupKV (updateCombinedPairs c k m) k' = lookupKV c k' := by
  unfold updateCombinedPairs
  cases lookupKV c k with
  | none => exact lookupKV_setKV_other c k k' m h
  | some e =>
    show lookupKV
      (if strLt e.updated_at m.updated_at then setKV c k m else c) k'
      = lookupKV c k'
    by_cases hlt : strLt e.updated_at m.updated_at = true
    · rw [if_pos hlt]
      exact lookupKV_setKV_other c k k' m h
    · rw [if_neg hlt]

theorem updateCombinedPairs_presence (c : Pairs) (k : String)
    (m : PairEntry) (k' : String) (e : PairEntry)
    (h : lookupKV c k' = some e) :
    ∃ e', lookupKV (updateCombinedPairs c k m) k' = some e' := by
  by_cases hk : k = k'
  · subst hk
    rw [lookupKV_updateCombinedPairs_self, h]
    show ∃ e', (if strLt e.updated_at m.updated_at then some m else some e)
      = some e'
    by_cases hlt : strLt e.updated_at m.updated_at = true
    · rw [if_pos hlt]
      exact ⟨m, rfl⟩
    · rw [if_neg hlt]
      exact ⟨e, rfl⟩
  · rw [lookupKV_updateCombinedPairs_other c k m k' hk]
    exact ⟨e, h⟩

theorem processClientData_untouched (batch : Batch) (k : String) :
    ∀ c, (∀ kv ∈ batch, kv.1 ≠ k) →
    lookupKV (processClientData c batch) k = lookupKV c k := by
  induction batch with
  | nil => intro c _; rfl
  | cons kv rest ih =>
    intro c h
    have hk : kv.1 ≠ k := h kv (by simp)
    have hrest : ∀ kv' ∈ rest, kv'.1 ≠ k := fun kv' hm => h kv' (by simp [hm])
    show lookupKV (processClientData (updateCombinedPairs c kv.1 kv.2) rest) k
      = lookupKV c k
    rw [ih _ hrest, lookupKV_updateCombinedPairs_other c kv.1 kv.2 k hk]

theorem processClientData_presence (batch : Batch) (k : String) :
    ∀ c e, lookupKV c k = some e →
    ∃ e', lookupKV (processClientData c batch) k = some e' := by
  induction batch with
  | nil => intro c e h; exact ⟨e, h⟩
  | cons kv rest ih =>
    intro c e h
    rcases updateCombinedPairs_presence c kv.1 kv.2 k e h with ⟨e1, he1⟩
    exact ih _ e1 he1

theorem foldl_processClientData_untouched (batches : List Batch)
    (k : String) :
    ∀ c, (∀ b ∈ batches, ∀ kv ∈ b, kv.1 ≠ k) →
    lookupKV (batches.foldl processClientData c) k = lookupKV c k := by
  induction batches with
  | nil => intro c _; rfl
  | cons b rest ih =>
    intro c h
    show lookupKV (rest.foldl processClientData (processClientData c b)) k
      = lookupKV c k
    rw [ih _ (fun b' hb' => h b' (by simp [hb'])),
      processClientData_untouched b k c (h b (by simp))]

theorem foldl_processClientData_presence (batches : List Batch)
    (k : String) :
    ∀ c e, lookupKV c k = some e →
    ∃ e', lookupKV (batches.foldl processClientData c) k = some e' := by
  induction batches with
  | nil => intro c e h; exact ⟨e, h⟩
  | cons b rest ih =>
    intro c e h
    rcases processClientData_presence b k c e h with ⟨e1, he1⟩
    exact ih _ e1 he1

theorem foldl_applyFetch_combined (fetches : List FetchResult) :
    ∀ st : RunState,
    (fetches.foldl applyFetch st).combined =
      (okBatches fetches).foldl processClientData st.combined := by
  induction fetches with
  | nil => intro st; rfl
  | cons fr rest ih =>
    intro st
    cases fr with
    | ok b =>
      show (rest.foldl applyFetch (applyFetch st (.ok b))).combined = _
      rw [ih]
      rfl
    | error e =>
      show (rest.foldl applyFetch (applyFetch st (.error e))).combined = _
      rw [ih]
      rfl

theorem foldl_applyFetch_all_errors (fetches : List FetchResult) :
    ∀ st : RunState,
    (∀ fr ∈ fetches, ∃ msg, fr = Except.error msg) →
    (fetches.foldl applyFetch st).combined = st.combined ∧
    (fetches.foldl applyFetch st).fetched = st.fetched := by
  induction fetches with
  | nil => intro st _; exact ⟨rfl, rfl⟩
  | cons fr rest ih =>
    intro st h
    rcases h fr (by simp) with ⟨msg, rfl⟩
    exact ih { st with errors := st.errors ++ [msg] }
      (fun fr' hm => h fr' (by simp [hm]))

theorem pairs_empty_of_combined_empty (s : Snapshot)
    (fetches : List FetchResult)
    (h : (fetches.foldl applyFetch ⟨s.pairs, [], 0⟩).combined = []) :
    s.pairs = [] := by
  cases hp : s.pairs with
  | nil => rfl
  | cons kv t =>
    obtain ⟨k, v⟩ := kv
    have hl : lookupKV s.pairs k = some v := by
      rw [hp]
      simp [lookupKV]
    have hpres := foldl_processClientData_presence (okBatches fetches) k
      s.pairs v hl
    rw [← foldl_applyFetch_combined fetches ⟨s.pairs, [], 0⟩] at hpres
    rcases hpres with ⟨e', he'⟩
    rw [h] at he'
    simp [lookupKV] at he'

theorem runUpdate_file_pairs (s : Snapshot) (fetches : List FetchResult)
    (now : String) :
    (runUpdate s fetches now).file.pairs =
      (fetches.foldl applyFetch ⟨s.pairs, [], 0⟩).combined := by
  by_cases h : (fetches.foldl applyFetch ⟨s.pairs, [], 0⟩).combined.isEmpty
  · have hnil : (fetches.foldl applyFetch ⟨s.pairs, [], 0⟩).combined = [] :=
      List.isEmpty_iff.mp h
    have hp : s.pairs = [] := pairs_empty_of_combined_empty s fetches hnil
    rw [hp] at hnil
    simp [runUpdate, hnil, hp]
  · simp [runUpdate, h, writeSnapshot]

theorem getConversionRateFuel_succ (n : Nat) (pairs : Pairs)
    (f t : String) :
    getConversionRateFuel (n + 1) pairs f t =
      match rateSteps123 pairs f t with
      | some r => some r
      | none =>
        if f ≠ "USD" ∧ t ≠ "USD" then
          match getConversionRateFuel n pairs f "USD",
                getConversionRateFuel n pairs "USD" t with
          | some a, some b => if 0 < a ∧ 0 < b then some (a * b) else none
          | _, _ => none
        else none := rfl

theorem getConversionRateFuel_succ_usd (n : Nat) (pairs : Pairs)
    (f t : String) (h : f = "USD" ∨ t = "USD") :
    getConversionRateFuel (n + 1) pairs f t = rateSteps123 pairs f t := by
  rw [getConversionRateFuel_succ]
  cases hs : rateSteps123 pairs f t with
  | some r => rfl
  | none =>
    have hg : ¬(f ≠ "USD" ∧ t ≠ "USD") := by
      rcases h with h | h <;> simp [h]
    simp [hg]

theorem getConversionRateFuel_one_usd (pairs : Pairs) (f t : String)
    (h : f = "USD" ∨ t = "USD") :
    getConversionRateFuel 1 pairs f t = rateSteps123 pairs f t :=
  getConversionRateFuel_succ_usd 0 pairs f t h

theorem getConversionRateFuel_indep (pairs : Pairs) (f t : String)
    (m : Nat) :
    getConversionRateFuel (m + 1 + 1) pairs f t =
      getConversionRate pairs f t := by
  show getConversionRateFuel (m + 1 + 1) pairs f t
    = getConversionRateFuel (1 + 1) pairs f t
  rw [getConversionRateFuel_succ (m + 1), getConversionRateFuel_succ 1]
  cases hs : rateSteps123 pairs f t with
  | some r => rfl
  | none =>
    simp only []
    by_cases hg : f ≠ "USD" ∧ t ≠ "USD"
    · rw [if_pos hg, if_pos hg,
        getConversionRateFuel_succ_usd m pairs f "USD" (Or.inr rfl),
        getConversionRateFuel_succ_usd m pairs "USD" t (Or.inl rfl),
        getConversionRateFuel_one_usd pairs f "USD" (Or.inr rfl),
        getConversionRateFuel_one_usd pairs "USD" t (Or.inl rfl)]
    · rw [if_neg hg, if_neg hg]

/-- C9: the conversion lookup terminates on every input: the bridging
branch only recurses into lookups with USD on one side, whose own
bridging guard fails, so the recursion is at most one hop deep and any
recursion budget of at least 2 computes the same total function that
getConversionRate denotes. -/
theorem conversion_rate_terminates (pairs : Pairs) (f t : String)
    (n : Nat) (h : 2 ≤ n) :
    getConversionRateFuel n pairs f t = getConversionRate pairs f t := by
  obtain ⟨m, rfl⟩ : ∃ m, n = m + 1 + 1 := ⟨n - 2, by omega⟩
  exact getConversionRateFuel_indep pairs f t m

theorem conversion_rate_terminates_witness :
    getConversionRateFuel 7
      [("EUR_USD", ⟨2, "2024-01-01T00:00:00Z", "CoinGecko"⟩),
       ("USD_JPY", ⟨150, "2024-01-01T00:00:00Z", "ExchangeRate-API"⟩)]
      "EUR" "JPY" =
    getConversionRate
      [("EUR_USD", ⟨2, "2024-01-01T00:00:00Z", "CoinGecko"⟩),
       ("USD_JPY", ⟨150, "2024-01-01T00:00:00Z", "ExchangeRate-API"⟩)]
      "EUR" "JPY" :=
  conversion_rate_terminates
    [("EUR_USD", ⟨2, "2024-01-01T00:00:00Z", "CoinGecko"⟩),
     ("USD_JPY", ⟨150, "2024-01-01T00:00:00Z", "ExchangeRate-API"⟩)]
    "EUR" "JPY" 7 (by decide)

/-- C3: when the snapshot holds FROM_TO with a positive rate and no
TO_FROM entry, the conversion lookup of (TO, FROM) resolves through the
inverse-lookup path and returns exactly the reciprocal of that rate
(the rational model makes the floating tolerance an equality). -/
theorem conversion_inverse_lookup (pairs : Pairs) (f t : String)
    (e : PairEntry)
    (hdir : lookupKV pairs (f ++ "_" ++ t) = some e)
    (hpos : 0 < e.rate)
    (hrev : lookupKV pairs (t ++ "_" ++ f) = none) :
    getConversionRate pairs t f = some (1 / e.rate) := by
  have hne : t ≠ f := by
    intro h
    subst h
    rw [hdir] at hrev
    exact Option.noConfusion hrev
  have hsteps : rateSteps123 pairs t f = some (1 / e.rate) := by
    simp [rateSteps123, rateInverseStep, hne, hrev, hdir, hpos]
  show getConversionRateFuel (1 + 1) pairs t f = some (1 / e.rate)
  rw [getConversionRateFuel_succ, hsteps]

theorem conversion_inverse_lookup_witness :
    getConversionRate
      [("EUR_USD", ⟨2, "2024-01-01T00:00:00Z", "CoinGecko"⟩)]
      "USD" "EUR" = some (1 / (2 : ℚ)) :=
  conversion_inverse_lookup
    [("EUR_USD", ⟨2, "2024-01-01T00:00:00Z", "CoinGecko"⟩)]
    "EUR" "USD" ⟨2, "2024-01-01T00:00:00Z", "CoinGecko"⟩
    rfl (by decide) rfl

/-- C4, counterexample to the claim as stated: with A = B = EUR, both
different from USD, no EUR_EUR entry, and positive rates for EUR against
USD (2) and USD against EUR (5), the lookup returns the identity rate 1
from the first step, not the bridged product 10. -/
theorem conversion_bridge_counterexample :
    ("EUR" : String) ≠ "USD" ∧
    lookupKV
      ([("EUR_USD", ⟨2, "2024-01-01T00:00:00Z", "CoinGecko"⟩),
        ("USD_EUR", ⟨5, "2024-01-01T00:00:00Z", "CoinGecko"⟩)] : Pairs)
      ("EUR" ++ "_" ++ "EUR") = none ∧
    getConversionRate
      [("EUR_USD", ⟨2, "2024-01-01T00:00:00Z", "CoinGecko"⟩),
       ("USD_EUR", ⟨5, "2024-01-01T00:00:00Z", "CoinGecko"⟩)]
      "EUR" "USD" = some 2 ∧ (0 : ℚ) < 2 ∧
    getConversionRate
      [("EUR_USD", ⟨2, "2024-01-01T00:00:00Z", "CoinGecko"⟩),
       ("USD_EUR", ⟨5, "2024-01-01T00:00:00Z", "CoinGecko"⟩)]
      "USD" "EUR" = some 5 ∧ (0 : ℚ) < 5 ∧
    getConversionRate
      [("EUR_USD", ⟨2, "2024-01-01T00:00:00Z", "CoinGecko"⟩),
       ("USD_EUR", ⟨5, "2024-01-01T00:00:00Z", "CoinGecko"⟩)]
      "EUR" "EUR" = some 1 ∧
    ¬ ((2 : ℚ) * 5 = 1) := by
  refine ⟨by decide, by decide, by decide, by decide, by decide,
    by decide, by decide, by norm_num⟩

/-- C4 as amended: for two distinct codes A and B, both different from
USD, with no direct or inverse A/B entry but positive rates resolvable
for A against USD and for USD against B, the lookup succeeds via
bridging and returns exactly the product of the two legs. -/
theorem conversion_bridge (pairs : Pairs) (a b : String) (r1 r2 : ℚ)
    (hab : a ≠ b) (ha : a ≠ "USD") (hb : b ≠ "USD")
    (hd : lookupKV pairs (a ++ "_" ++ b) = none)
    (hi : lookupKV pairs (b ++ "_" ++ a) = none)
    (h1 : getConversionRate pairs a "USD" = some r1) (h1p : 0 < r1)
    (h2 : getConversionRate pairs "USD" b = some r2) (h2p : 0 < r2) :
    getConversionRate pairs a b = some (r1 * r2) := by
  have hsteps : rateSteps123 pairs a b = none := by
    simp [rateSteps123, rateInverseStep, hab, hd, hi]
  have hu1 : getConversionRateFuel 1 pairs a "USD" = some r1 := by
    rw [getConversionRateFuel_one_usd pairs a "USD" (Or.inr rfl),
      ← getConversionRateFuel_succ_usd 1 pairs a "USD" (Or.inr rfl)]
    exact h1
  have hu2 : getConversionRateFuel 1 pairs "USD" b = some r2 := by
    rw [getConversionRateFuel_one_usd pairs "USD" b (Or.inl rfl),
      ← getConversionRateFuel_succ_usd 1 pairs "USD" b (Or.inl rfl)]
    exact h2
  show getConversionRateFuel (1 + 1) pairs a b = some (r1 * r2)
  rw [getConversionRateFuel_succ, hsteps]
  simp only []
  rw [if_pos ⟨ha, hb⟩, hu1, hu2]
  show (if 0 < r1 ∧ 0 < r2 then some (r1 * r2) else none) = some (r1 * r2)
  rw [if_pos ⟨h1p, h2p⟩]

theorem conversion_bridge_witness :
    getConversionRate
      [("EUR_USD", ⟨2, "2024-01-01T00:00:00Z", "CoinGecko"⟩),
       ("USD_JPY", ⟨150, "2024-01-01T00:00:00Z", "ExchangeRate-API"⟩)]
      "EUR" "JPY" = some ((2 : ℚ) * 150) :=
  conversion_bridge
    [("EUR_USD", ⟨2, "2024-01-01T00:00:00Z", "CoinGecko"⟩),
     ("USD_JPY", ⟨150, "2024-01-01T00:00:00Z", "ExchangeRate-API"⟩)]
    "EUR" "JPY" 2 150 (by decide) (by decide) (by decide)
    rfl rfl rfl (by decide) rfl (by decide)

theorem lookupKV_setKV {α : Type} (ps : List (String × α))
    (k k' : String) (v : α) :
    lookupKV (setKV ps k v) k' =
      if k = k' then some v else lookupKV ps k' := by
  by_cases h : k = k'
  · subst h
    rw [if_pos rfl]
    exact lookupKV_setKV_self ps k v
  · rw [if_neg h]
    exact lookupKV_setKV_other ps k k' v h

theorem runUpdate_file_pairs_merge (prior : Snapshot)
    (fetches : List FetchResult) (now : String) :
    (runUpdate prior fetches now).file.pairs =
      (okBatches fetches).foldl processClientData prior.pairs := by
  rw [runUpdate_file_pairs, foldl_applyFetch_combined]

/-- C1, counterexample to the claim as stated: on a timestamp tie
(T2 = T1, so T2 is not smaller than T1 lexicographically) the merge
keeps the existing entry, so the post-merge entry is not the incoming
quote even though T2 is not older than T1. -/
theorem merge_recency_counterexample :
    strLt "2024-01-01T00:00:00Z" "2024-01-01T00:00:00Z" = false ∧
    lookupKV
      (updateCombinedPairs
        [("BTC_USD", ⟨1, "2024-01-01T00:00:00Z", "X"⟩)]
        "BTC_USD" ⟨2, "2024-01-01T00:00:00Z", "Y"⟩)
      "BTC_USD" = some ⟨1, "2024-01-01T00:00:00Z", "X"⟩ ∧
    (⟨1, "2024-01-01T00:00:00Z", "X"⟩ : PairEntry) ≠
      ⟨2, "2024-01-01T00:00:00Z", "Y"⟩ := by
  refine ⟨by decide, by decide, by decide⟩

/-- C1 as amended: the post-merge entry for a pair key is the incoming
quote exactly when the existing entry is absent or its updated_at is
lexicographically strictly smaller than the incoming updated_at; on a
tie or an older incoming quote the existing entry survives unchanged. -/
theorem merge_recency (combined : Pairs) (k : String) (m : PairEntry) :
    (∀ e, lookupKV combined k = some e →
      lookupKV (updateCombinedPairs combined k m) k =
        if strLt e.updated_at m.updated_at then some m else some e) ∧
    (lookupKV combined k = none →
      lookupKV (updateCombinedPairs combined k m) k = some m) := by
  constructor
  · intro e he
    rw [lookupKV_updateCombinedPairs_self, he]
  · intro he
    rw [lookupKV_updateCombinedPairs_self, he]

theorem merge_recency_witness :
    lookupKV
      (updateCombinedPairs
        [("BTC_USD", ⟨1, "2024-01-01T00:00:00Z", "X"⟩)]
        "BTC_USD" ⟨2, "2024-01-02T00:00:00Z", "Y"⟩)
      "BTC_USD" =
      (if strLt "2024-01-01T00:00:00Z" "2024-01-02T00:00:00Z" then
        some ⟨2, "2024-01-02T00:00:00Z", "Y"⟩
      else some ⟨1, "2024-01-01T00:00:00Z", "X"⟩) :=
  (merge_recency [("BTC_USD", ⟨1, "2024-01-01T00:00:00Z", "X"⟩)]
    "BTC_USD" ⟨2, "2024-01-02T00:00:00Z", "Y"⟩).1
    ⟨1, "2024-01-01T00:00:00Z", "X"⟩ rfl

/-- C2, counterexample to the claim as stated: a run over a non-empty
prior snapshot in which the provider selection matched zero providers
still rewrites the snapshot file, because run_update writes whenever
the combined pairs mapping is non-empty; the rewritten file carries a
fresh last_refresh, so the file is not left untouched. -/
theorem empty_merge_counterexample :
    (runUpdate
      ⟨[("BTC_USD", ⟨1, "2024-01-01T00:00:00Z", "X"⟩)],
        some "2024-01-01T00:00:00Z"⟩
      [] "2024-01-02T00:00:00Z").file ≠
      ⟨[("BTC_USD", ⟨1, "2024-01-01T00:00:00Z", "X"⟩)],
        some "2024-01-01T00:00:00Z"⟩ ∧
    (runUpdate
      ⟨[("BTC_USD", ⟨1, "2024-01-01T00:00:00Z", "X"⟩)],
        some "2024-01-01T00:00:00Z"⟩
      [] "2024-01-02T00:00:00Z").file.last_refresh =
      some "2024-01-02T00:00:00Z" ∧
    (runUpdate
      ⟨[("BTC_USD", ⟨1, "2024-01-01T00:00:00Z", "X"⟩)],
        some "2024-01-01T00:00:00Z"⟩
      [] "2024-01-02T00:00:00Z").result.fetched = 0 := by
  refine ⟨by decide, by decide, by decide⟩

/-- C2 as amended: a run in which no provider produced any result (all
selected providers failed, or the selection matched zero providers)
returns a result with fetched count zero and pairs identical to the
prior snapshot's pairs; the snapshot file keeps the prior pairs but is
left untouched only when the prior pairs mapping is empty — when it is
non-empty the file is rewritten with the same pairs and a fresh
last_refresh timestamp. -/
theorem empty_merge (prior : Snapshot) (fetches : List FetchResult)
    (now : String)
    (h : ∀ fr ∈ fetches, ∃ msg, fr = Except.error msg) :
    (runUpdate prior fetches now).result.fetched = 0 ∧
    (runUpdate prior fetches now).result.total = prior.pairs.length ∧
    (runUpdate prior fetches now).file.pairs = prior.pairs ∧
    (prior.pairs = [] → (runUpdate prior fetches now).file = prior) ∧
    (prior.pairs ≠ [] →
      (runUpdate prior fetches now).file = writeSnapshot prior.pairs now)
    := by
  obtain ⟨hcomb, hfetch⟩ :=
    foldl_applyFetch_all_errors fetches ⟨prior.pairs, [], 0⟩ h
  refine ⟨?_, ?_, ?_, ?_, ?_⟩
  · simp [runUpdate, hfetch]
  · simp [runUpdate, hcomb]
  · rw [runUpdate_file_pairs, hcomb]
  · intro hp
    have hcomb' := hcomb
    rw [hp] at hcomb'
    simp [runUpdate, hcomb', hp]
  · intro hp
    have hfalse : prior.pairs.isEmpty = false := by
      cases hq : prior.pairs with
      | nil => exact absurd hq hp
      | cons a l => rfl
    simp [runUpdate, hcomb, hfalse]

theorem empty_merge_witness :
    (runUpdate
      ⟨[("BTC_USD", ⟨1, "2024-01-01T00:00:00Z", "X"⟩)], some "A"⟩
      [Except.error "boom"] "2024-01-02T00:00:00Z").file =
      writeSnapshot [("BTC_USD", ⟨1, "2024-01-01T00:00:00Z", "X"⟩)]
        "2024-01-02T00:00:00Z" :=
  (empty_merge
    ⟨[("BTC_USD", ⟨1, "2024-01-01T00:00:00Z", "X"⟩)], some "A"⟩
    [Except.error "boom"] "2024-01-02T00:00:00Z"
    (by
      intro fr hfr
      simp at hfr
      exact ⟨"boom", hfr⟩)).2.2.2.2 (by decide)

/-- C5: every pair key present in the prior snapshot is still present
after the merge run, and a pair key absent from every successful batch
of the run keeps its entry (rate, updated_at, source) unchanged; no
merge deletes a pair. -/
theorem merge_preserves_pairs (prior : Snapshot)
    (fetches : List FetchResult) (now : String) (k : String)
    (e : PairEntry) (h : lookupKV prior.pairs k = some e) :
    (∃ e', lookupKV (runUpdate prior fetches now).file.pairs k = some e')
    ∧ ((∀ b ∈ okBatches fetches, ∀ kv ∈ b, kv.1 ≠ k) →
      lookupKV (runUpdate prior fetches now).file.pairs k = some e) := by
  have hfile := runUpdate_file_pairs_merge prior fetches now
  constructor
  · rcases foldl_processClientData_presence (okBatches fetches) k
      prior.pairs e h with ⟨e', he'⟩
    refine ⟨e', ?_⟩
    rw [hfile]
    exact he'
  · intro hk
    rw [hfile,
      foldl_processClientData_untouched (okBatches fetches) k
        prior.pairs hk]
    exact h

theorem merge_preserves_pairs_witness :
    lookupKV
      (runUpdate
        ⟨[("BTC_USD", ⟨1, "2024-01-01T00:00:00Z", "X"⟩)], none⟩
        [Except.ok [("ETH_USD", ⟨2, "2024-01-02T00:00:00Z", "Y"⟩)]]
        "2024-01-03T00:00:00Z").file.pairs
      "BTC_USD" = some ⟨1, "2024-01-01T00:00:00Z", "X"⟩ :=
  (merge_preserves_pairs
    ⟨[("BTC_USD", ⟨1, "2024-01-01T00:00:00Z", "X"⟩)], none⟩
    [Except.ok [("ETH_USD", ⟨2, "2024-01-02T00:00:00Z", "Y"⟩)]]
    "2024-01-03T00:00:00Z" "BTC_USD"
    ⟨1, "2024-01-01T00:00:00Z", "X"⟩ rfl).2 (by decide)

/-- C7: when exactly one of two providers fails, the run still
completes: the surviving batch is merged into the persisted pairs, the
fetched count is that batch's size, and the error list holds exactly
the failing provider's message. -/
theorem partial_failure_resilience (prior : Snapshot) (msg : String)
    (batch : Batch) (now : String) (fetches : List FetchResult)
    (h : fetches = [Except.error msg, Except.ok batch] ∨
         fetches = [Except.ok batch, Except.error msg]) :
    (runUpdate prior fetches now).result.errors = [msg] ∧
    (runUpdate prior fetches now).result.fetched = batch.length ∧
    (runUpdate prior fetches now).file.pairs =
      processClientData prior.pairs batch := by
  rcases h with rfl | rfl
  · refine ⟨?_, ?_, ?_⟩
    · simp [runUpdate, applyFetch]
    · simp [runUpdate, applyFetch]
    · rw [runUpdate_file_pairs_merge]
      rfl
  · refine ⟨?_, ?_, ?_⟩
    · simp [runUpdate, applyFetch]
    · simp [runUpdate, applyFetch]
    · rw [runUpdate_file_pairs_merge]
      rfl

theorem partial_failure_resilience_witness :
    (runUpdate ⟨[], none⟩
      [Except.error "boom",
       Except.ok [("BTC_USD", ⟨3, "2024-01-01T00:00:00Z", "CoinGecko"⟩)]]
      "2024-01-02T00:00:00Z").result.errors = ["boom"] ∧
    (runUpdate ⟨[], none⟩
      [Except.error "boom",
       Except.ok [("BTC_USD", ⟨3, "2024-01-01T00:00:00Z", "CoinGecko"⟩)]]
      "2024-01-02T00:00:00Z").result.fetched = 1 ∧
    (runUpdate ⟨[], none⟩
      [Except.error "boom",
       Except.ok [("BTC_USD", ⟨3, "2024-01-01T00:00:00Z", "CoinGecko"⟩)]]
      "2024-01-02T00:00:00Z").file.pairs =
      processClientData []
        [("BTC_USD", ⟨3, "2024-01-01T00:00:00Z", "CoinGecko"⟩)] :=
  partial_failure_resilience ⟨[], none⟩ "boom"
    [("BTC_USD", ⟨3, "2024-01-01T00:00:00Z", "CoinGecko"⟩)]
    "2024-01-02T00:00:00Z"
    [Except.error "boom",
     Except.ok [("BTC_USD", ⟨3, "2024-01-01T00:00:00Z", "CoinGecko"⟩)]]
    (Or.inl rfl)

/-- C6: for every pair a provider reports, the returned batch contains
both the direct key and the inverse key, the inverse rate is the
reciprocal for a nonzero rate and 0 for a zero rate, and the inverse
computation is a total function (no division fault for any rate). -/
theorem provider_both_directions :
    (∀ (priceOf : String → Option ℚ) (ts code rawId : String) (r : ℚ),
      (code, rawId) ∈ cryptoIdMap → priceOf rawId = some r →
      lookupKV (coinGeckoFetchRates priceOf ts)
        (code ++ "_" ++ baseFiatCurrency) = some ⟨r, ts, "CoinGecko"⟩ ∧
      lookupKV (coinGeckoFetchRates priceOf ts)
        (baseFiatCurrency ++ "_" ++ code) =
        some ⟨invRate r, ts, "CoinGecko"⟩) ∧
    (∀ (ratesOf : String → Option ℚ) (ts code : String) (r : ℚ),
      code ∈ fiatCurrencies → ratesOf code = some r →
      lookupKV (exchangeRateFetchRates ratesOf ts)
        (baseFiatCurrency ++ "_" ++ code) =
        some ⟨r, ts, "ExchangeRate-API"⟩ ∧
      lookupKV (exchangeRateFetchRates ratesOf ts)
        (code ++ "_" ++ baseFiatCurrency) =
        some ⟨invRate r, ts, "ExchangeRate-API"⟩) ∧
    (∀ r : ℚ, (r = 0 → invRate r = 0) ∧ (r ≠ 0 → invRate r = 1 / r)) := by
  refine ⟨?_, ?_, ?_⟩
  · intro priceOf ts code rawId r hmem hr
    simp only [cryptoIdMap, List.mem_cons, List.not_mem_nil, or_false,
      Prod.mk.injEq] at hmem
    rcases hmem with ⟨rfl, rfl⟩ | ⟨rfl, rfl⟩ | ⟨rfl, rfl⟩
    · cases h2 : priceOf "ethereum" <;> cases h3 : priceOf "solana" <;>
        simp [coinGeckoFetchRates, cryptoIdMap, baseFiatCurrency, hr,
          h2, h3, lookupKV_setKV, lookupKV]
    · cases h1 : priceOf "bitcoin" <;> cases h3 : priceOf "solana" <;>
        simp [coinGeckoFetchRates, cryptoIdMap, baseFiatCurrency, hr,
          h1, h3, lookupKV_setKV, lookupKV]
    · cases h1 : priceOf "bitcoin" <;> cases h2 : priceOf "ethereum" <;>
        simp [coinGeckoFetchRates, cryptoIdMap, baseFiatCurrency, hr,
          h1, h2, lookupKV_setKV, lookupKV]
  · intro ratesOf ts code r hmem hr
    simp only [fiatCurrencies, List.mem_cons, List.not_mem_nil,
      or_false] at hmem
    rcases hmem with rfl | rfl | rfl
    · cases h2 : ratesOf "GBP" <;> cases h3 : ratesOf "RUB" <;>
        simp [exchangeRateFetchRates, fiatCurrencies, baseFiatCurrency,
          hr, h2, h3, lookupKV_setKV, lookupKV]
    · cases h1 : ratesOf "EUR" <;> cases h3 : ratesOf "RUB" <;>
        simp [exchangeRateFetchRates, fiatCurrencies, baseFiatCurrency,
          hr, h1, h3, lookupKV_setKV, lookupKV]
    · cases h1 : ratesOf "EUR" <;> cases h2 : ratesOf "GBP" <;>
        simp [exchangeRateFetchRates, fiatCurrencies, baseFiatCurrency,
          hr, h1, h2, lookupKV_setKV, lookupKV]
  · intro r
    constructor
    · intro h
      simp [invRate, h]
    · intro h
      simp [invRate, h]

theorem provider_both_directions_witness :
    lookupKV
      (coinGeckoFetchRates
        (fun rawId => if rawId = "bitcoin" then some 50000 else none)
        "2024-01-01T00:00:00Z")
      ("BTC" ++ "_" ++ baseFiatCurrency) =
      some ⟨50000, "2024-01-01T00:00:00Z", "CoinGecko"⟩ ∧
    lookupKV
      (coinGeckoFetchRates
        (fun rawId => if rawId = "bitcoin" then some 50000 else none)
        "2024-01-01T00:00:00Z")
      (baseFiatCurrency ++ "_" ++ "BTC") =
      some ⟨invRate 50000, "2024-01-01T00:00:00Z", "CoinGecko"⟩ :=
  provider_both_directions.1
    (fun rawId => if rawId = "bitcoin" then some 50000 else none)
    "2024-01-01T00:00:00Z" "BTC" "bitcoin" 50000 (by decide) rfl

/-- C8: the freshness check is total over the snapshot data model: an
absent (or empty, which Python treats as falsy) last_refresh yields the
no-timestamp message; a malformed timestamp yields the parse-error
message instead of an exception; a fresh timestamp (now minus
last_refresh at most the TTL) yields nothing; and the no-timestamp
message is distinct from every stale and parse-error message. -/
theorem freshness_check_total :
    (∀ nowSec ttlSec : Int,
      checkDataFreshness nowSec ttlSec none = some .noTimestamp) ∧
    (∀ (nowSec ttlSec : Int) (s : String), s ≠ "" → parseIsoZ s = none →
      checkDataFreshness nowSec ttlSec (some s) = some (.parseError s)) ∧
    (∀ (nowSec ttlSec t : Int) (s : String), parseIsoZ s = some t →
      nowSec - t ≤ ttlSec →
      checkDataFreshness nowSec ttlSec (some s) = none) ∧
    (∀ (lr : String) (mins : ℚ) (raw : String),
      FreshnessMessage.noTimestamp ≠ FreshnessMessage.stale lr mins ∧
      FreshnessMessage.noTimestamp ≠ FreshnessMessage.parseError raw) := by
  refine ⟨fun nowSec ttlSec => rfl, ?_, ?_, ?_⟩
  · intro nowSec ttlSec s hs hp
    simp [checkDataFreshness, hs, hp]
  · intro nowSec ttlSec t s hp hfresh
    have hs : s ≠ "" := by
      intro h
      subst h
      rw [show parseIsoZ "" = none from rfl] at hp
      exact Option.noConfusion hp
    have hnl : ¬ ttlSec < nowSec - t := not_lt.mpr hfresh
    simp [checkDataFreshness, hs, hp, hnl]
  · intro lr mins raw
    exact ⟨fun h => FreshnessMessage.noConfusion h,
      fun h => FreshnessMessage.noConfusion h⟩

theorem freshness_check_total_witness :
    checkDataFreshness 100 50 none = some .noTimestamp ∧
    checkDataFreshness 100 50 (some "oops") = some (.parseError "oops") ∧
    checkDataFreshness 20 60 (some "1970-01-01T00:00:10Z") = none :=
  ⟨freshness_check_total.1 100 50,
   freshness_check_total.2.1 100 50 "oops" (by decide) rfl,
   freshness_check_total.2.2.1 20 60 10 "1970-01-01T00:00:10Z" rfl
     (by decide)⟩

/-- C10: reading the snapshot store is total: a missing file and an
unreadable document both yield the default snapshot with empty pairs
and a null last_refresh (the source catches every exception), a valid
document is returned as is, and a merge run over a missing or
unreadable store behaves exactly as over the default empty snapshot. -/
theorem read_snapshot_total :
    readSnapshot .missing = ⟨[], none⟩ ∧
    readSnapshot .unreadable = ⟨[], none⟩ ∧
    (∀ snap, readSnapshot (.valid snap) = snap) ∧
    (∀ (fs : SnapshotFileState) (fetches : List FetchResult)
      (now : String), fs = .missing ∨ fs = .unreadable →
      runUpdate (readSnapshot fs) fetches now =
        runUpdate ⟨[], none⟩ fetches now) := by
  refine ⟨rfl, rfl, fun snap => rfl, ?_⟩
  intro fs fetches now h
  rcases h with rfl | rfl <;> rfl

theorem read_snapshot_total_witness :
    runUpdate (readSnapshot .missing)
      [Except.ok [("BTC_USD", ⟨3, "2024-01-01T00:00:00Z", "CoinGecko"⟩)]]
      "2024-01-02T00:00:00Z" =
    runUpdate ⟨[], none⟩
      [Except.ok [("BTC_USD", ⟨3, "2024-01-01T00:00:00Z", "CoinGecko"⟩)]]
      "2024-01-02T00:00:00Z" :=
  read_snapshot_total.2.2.2 .missing
    [Except.ok [("BTC_USD", ⟨3, "2024-01-01T00:00:00Z", "CoinGecko"⟩)]]
    "2024-01-02T00:00:00Z" (Or.inl rfl)

end ValutaTradeHub
